import Mathlib

/-!
Shallow embedding of `src/spectralrl/module/net/basic.py`.

Tensors are modelled as a shape (list of dimension sizes) together with a
total valuation of multi-indices; entries at indices outside the shape are
junk values that no theorem depends on.  Tensor entries are rationals: the
claims under verification are algebraic identities about the einsum
contractions and interval bounds about initialization, stated over exact
arithmetic.
-/

/-- A tensor: a shape and a valuation of multi-indices (row-major conceptual
view; only indices within the shape are meaningful). -/
structure Tensor where
  shape : List Nat
  data : List Nat → ℚ

/-- The `EnsembleLinear` module state: the constructor-set fields of
`EnsembleLinear.__init__` (basic.py lines 73-95).  `weight` has shape
`[in_features, out_features, ensemble_size]` and `bias` has shape
`[out_features, ensemble_size]` for every layer produced by construction. -/
structure EnsembleLinear where
  in_features : Nat
  out_features : Nat
  ensemble_size : Nat
  share_input : Bool
  add_bias : Bool
  weight : Tensor
  bias : Tensor

/-- The error raised by a torch einsum / broadcast when operand dimensions do
not agree (spec name: `ShapeMismatch`). -/
inductive ShapeError where
  | shapeMismatch
deriving DecidableEq

/-- A labeled dimension of a torch einsum with sizes `a` and `b` in the two
operands is accepted when the sizes agree or either is 1; a size-1 dimension
is broadcast against the other. -/
def broadcastsWith (a b : Nat) : Prop := a = b ∨ a = 1 ∨ b = 1

instance (a b : Nat) : Decidable (broadcastsWith a b) := by
  unfold broadcastsWith
  infer_instance

/-- Broadcast indexing: position `j` of a broadcast dimension read from the
operand whose size for that label is `sa`, the other operand having size
`sb`.  When `sa = 1` and the other operand is genuinely larger the single
entry at 0 is read; otherwise the two sizes agree on the valid range and the
index passes through unchanged. -/
def broadcastIndex (sa sb j : Nat) : Nat := if sa = 1 ∧ sb ≠ 1 then 0 else j

/-- Embedding of line 108, the torch einsum with subscripts `...j,jkb->...kb`
applied to `input` and `self.weight`, plus `self.bias`: contract the trailing
axis of `input` (size `inJ`) with axis 0 of `weight` (size `in_features`),
broadcasting whichever of the two is 1 when they differ, then broadcast-add
the bias.  The result has shape `[..., out_features, E]` and its entry at
index `pre ++ [k, b]` is
`(sum over j < max inJ in_features of
  input[pre, broadcastIndex inJ in_features j] *
  weight[broadcastIndex in_features inJ j, k, b]) + bias[k, b]`. -/
def einsumShared (L : EnsembleLinear) (input : Tensor) : Tensor :=
  { shape := input.shape.dropLast ++ [L.out_features, L.ensemble_size]
    data := fun idx =>
      let inJ := input.shape.getLastD 0
      let b := idx.getLastD 0
      let k := idx.dropLast.getLastD 0
      let pre := idx.dropLast.dropLast
      (∑ j ∈ Finset.range (max inJ L.in_features),
        input.data (pre ++ [broadcastIndex inJ L.in_features j]) *
          L.weight.data [broadcastIndex L.in_features inJ j, k, b]) +
        L.bias.data [k, b] }

/-- Embedding of line 110, the torch einsum with subscripts `b...j,jkb->...kb`
applied to `input` and `self.weight`, plus `self.bias`: the leading axis of
`input` (size `inB`) is identified with the ensemble axis of `weight` (size
`E`), broadcasting whichever is 1 when they differ, so member `b` is
contracted only with input slice `b` (slice 0 when the input carries a
broadcast singleton axis); the trailing axis (size `inJ`) is contracted with
axis 0 of `weight`, again with size-1 broadcasting; and the bias add
broadcasts its ensemble axis the same way.  The result has shape
`[..., out_features, max inB E]` and its entry at index `pre ++ [k, b]` is
`(sum over j < max inJ in_features of
  input[broadcastIndex inB E b, pre, broadcastIndex inJ in_features j] *
  weight[broadcastIndex in_features inJ j, k, broadcastIndex E inB b])
 + bias[k, broadcastIndex E inB b]`. -/
def einsumNoShare (L : EnsembleLinear) (input : Tensor) : Tensor :=
  { shape := input.shape.tail.dropLast ++
      [L.out_features, max (input.shape.headD 0) L.ensemble_size]
    data := fun idx =>
      let inB := input.shape.headD 0
      let inJ := input.shape.getLastD 0
      let b := idx.getLastD 0
      let k := idx.dropLast.getLastD 0
      let pre := idx.dropLast.dropLast
      (∑ j ∈ Finset.range (max inJ L.in_features),
        input.data (broadcastIndex inB L.ensemble_size b ::
            (pre ++ [broadcastIndex inJ L.in_features j])) *
          L.weight.data [broadcastIndex L.in_features inJ j, k,
            broadcastIndex L.ensemble_size inB b]) +
        L.bias.data [k, broadcastIndex L.ensemble_size inB b] }

/-- Embedding of line 111, the torch einsum with subscripts `...b->b...` applied to `res`: move the last
axis to the front. -/
def moveLastToFront (t : Tensor) : Tensor :=
  { shape := t.shape.getLastD 0 :: t.shape.dropLast
    data := fun idx =>
      match idx with
      | [] => t.data []
      | b :: rest => t.data (rest ++ [b]) }

/-- Embedding of `EnsembleLinear.forward` (basic.py lines 106-111).  The
einsum raises when its subscript pattern cannot be unified with the operand
shapes: in shared mode the input needs a trailing axis (rank at least 1)
whose size broadcasts with `in_features`; in non-shared mode it needs rank
at least 2, a leading axis whose size broadcasts with `ensemble_size`, and a
trailing axis whose size broadcasts with `in_features`.  Sizes broadcast
when they agree or either is 1 — a size-1 labeled dimension is broadcast,
not rejected.  By construction the weight tensor has shape
`[in_features, out_features, ensemble_size]`, so the einsum checks against
the weight dimensions are stated via the layer fields. -/
def forward (L : EnsembleLinear) (input : Tensor) : Except ShapeError Tensor :=
  if L.share_input then
    if input.shape ≠ [] ∧ broadcastsWith (input.shape.getLastD 0) L.in_features then
      .ok (moveLastToFront (einsumShared L input))
    else .error .shapeMismatch
  else
    if 2 ≤ input.shape.length ∧
        broadcastsWith (input.shape.headD 0) L.ensemble_size ∧
        broadcastsWith (input.shape.getLastD 0) L.in_features then
      .ok (moveLastToFront (einsumNoShare L input))
    else .error .shapeMismatch

/-- A method call on the module: the state that the call leaves behind paired
with the returned value.  The body of `forward` assigns no attribute of
`self`, so the outgoing state is the incoming one. -/
def transformCall (L : EnsembleLinear) (input : Tensor) :
    EnsembleLinear × Except ShapeError Tensor :=
  (L, forward L input)

/-- Clamp a rational to the unit interval. -/
def clamp01 (x : ℚ) : ℚ := max 0 (min 1 x)

/-- One draw of `nn.init.uniform_(t, lo, hi)` for a single element: the
sampler returns a value of the interval `[lo, hi]`; the raw source `x`
selects which point of the interval is drawn. -/
def uniformSample (lo hi x : ℚ) : ℚ := lo + (hi - lo) * clamp01 x

/-- Embedding of `EnsembleLinear.reset_parameters` (basic.py lines 97-104).
The local `std = 1.0 / math.sqrt(self.in_features)` of line 101 is passed as
the rational parameter `std` (its exact value in the code is a platform
float approximating `1 / sqrt(in_features)`; theorems relate it to
`in_features` through the hypothesis `std * std * in_features = 1`).
`nn.init.uniform_` overwrites every element of `weight` with a draw from
`[-std, std]`; when `add_bias` holds the same is done to `bias`, and
otherwise `bias` is untouched.  `wsrc`/`bsrc` are the raw randomness
sources, one value per element position. -/
def resetParameters (L : EnsembleLinear) (std : ℚ)
    (wsrc : Nat → Nat → Nat → ℚ) (bsrc : Nat → Nat → ℚ) : EnsembleLinear :=
  { L with
    weight :=
      { shape := L.weight.shape
        data := fun idx =>
          match idx with
          | [j, k, e] => uniformSample (-std) std (wsrc j k e)
          | _ => 0 }
    bias :=
      if L.add_bias then
        { shape := L.bias.shape
          data := fun idx =>
            match idx with
            | [k, e] => uniformSample (-std) std (bsrc k e)
            | _ => 0 }
      else L.bias }

/-- The ways construction can raise in the code: `torch.empty` rejects a
negative dimension at lines 90-92, and for `in_features = 0` the division
`1.0 / math.sqrt(self.in_features)` at line 101 raises a division-by-zero
during the `reset_parameters` call issued by the constructor. -/
inductive ConstructError where
  | negativeDim
  | divisionByZero
deriving DecidableEq

/-- Embedding of `EnsembleLinear.__init__` (basic.py lines 73-95) for integer
size arguments.  `torch.empty([in_features, out_features, ensemble_size])`
raises on a negative dimension and otherwise allocates (uninitialized
contents, modelled as zeros, immediately overwritten by
`reset_parameters`); with `bias = False` the bias buffer is
`torch.zeros([out_features, ensemble_size])`.  The constructor ends by
calling `reset_parameters`, which raises a division by zero when
`in_features = 0`.  No positivity validation is performed anywhere. -/
def mkEnsembleLinear (inF outF e : Int) (share bias : Bool) (std : ℚ)
    (wsrc : Nat → Nat → Nat → ℚ) (bsrc : Nat → Nat → ℚ) :
    Except ConstructError EnsembleLinear :=
  if inF < 0 ∨ outF < 0 ∨ e < 0 then .error .negativeDim
  else if inF = 0 then .error .divisionByZero
  else .ok (resetParameters
    { in_features := inF.toNat
      out_features := outF.toNat
      ensemble_size := e.toNat
      share_input := share
      add_bias := bias
      weight := { shape := [inF.toNat, outF.toNat, e.toNat], data := fun _ => 0 }
      bias := { shape := [outF.toNat, e.toNat], data := fun _ => 0 } }
    std wsrc bsrc)

/-- Semantics of `nn.init.orthogonal_` on a `rows × cols` matrix with gain
`g`: the tensor is filled with a (semi-)orthogonal matrix scaled by `g` —
orthonormal columns when `cols ≤ rows`, orthonormal rows otherwise.  `M j k`
is the entry at row `j`, column `k`. -/
def IsOrthogonalFill (rows cols : Nat) (g : ℚ) (M : Nat → Nat → ℚ) : Prop :=
  if cols ≤ rows then
    ∀ c1 < cols, ∀ c2 < cols,
      (∑ r ∈ Finset.range rows, M r c1 * M r c2) = if c1 = c2 then g * g else 0
  else
    ∀ r1 < rows, ∀ r2 < rows,
      (∑ c ∈ Finset.range cols, M r1 c * M r2 c) = if r1 = r2 then g * g else 0

instance (rows cols : Nat) (g : ℚ) (M : Nat → Nat → ℚ) :
    Decidable (IsOrthogonalFill rows cols g M) := by
  unfold IsOrthogonalFill
  split <;> exact Nat.decidableBallLT _ _

/-- Embedding of the `isinstance(m, EnsembleLinear)` branch of `weight_init`
(basic.py lines 14-18): for each ensemble index `i < ensemble_size`,
`nn.init.orthogonal_(m.weight.data[..., i], gain=gain)` overwrites member
slice `i` of the weight in place (the slice `[..., i]` is a view, a
`rows = in_features` by `cols = out_features` matrix); `fills i` is the
orthogonal matrix the library produced for slice `i`.  Then, since every
tensor has a `data` attribute, `m.bias.data.fill_(0.0)` zero-fills the bias
unconditionally. -/
def weight_init_ensemble (L : EnsembleLinear)
    (fills : Nat → Nat → Nat → ℚ) : EnsembleLinear :=
  { L with
    weight :=
      { shape := L.weight.shape
        data := fun idx =>
          match idx with
          | [j, k, e] => if e < L.ensemble_size then fills e j k else L.weight.data [j, k, e]
          | other => L.weight.data other }
    bias := { shape := L.bias.shape, data := fun _ => 0 } }

/-- Comparison definition following the words of the spec (shared-input
equivalence): an independent single-member linear layer with weight matrix
`W` (indexed row `j` of `inF`, column `k`) and bias vector `b`, applied to
`input` of shape `[..., inF]`: the entry at `pre ++ [k]` of the output is
`sum over j < inF of input[pre, j] * W j k + b k`. -/
def singleLinearForward (inF outF : Nat) (W : Nat → Nat → ℚ) (b : Nat → ℚ)
    (input : Tensor) : Tensor :=
  { shape := input.shape.dropLast ++ [outF]
    data := fun idx =>
      (∑ j ∈ Finset.range inF,
        input.data (idx.dropLast ++ [j]) * W j (idx.getLastD 0)) + b (idx.getLastD 0) }

/-- An operation performed on a layer after construction: a
`reset_parameters` call (with its randomness) or a `forward` call. -/
inductive LayerOp where
  | reset (std : ℚ) (wsrc : Nat → Nat → Nat → ℚ) (bsrc : Nat → Nat → ℚ)
  | transform (input : Tensor)

/-- The layer state left behind by one operation. -/
def applyOp (L : EnsembleLinear) : LayerOp → EnsembleLinear
  | .reset std wsrc bsrc => resetParameters L std wsrc bsrc
  | .transform input => (transformCall L input).1

/-- The layer state left behind by a sequence of operations. -/
def applyOps (L : EnsembleLinear) (ops : List LayerOp) : EnsembleLinear :=
  ops.foldl applyOp L

/-- A constant-zero randomness source with three index arguments. -/
def zeroSrc3 : Nat → Nat → Nat → ℚ := fun _ _ _ => 0

/-- A constant-zero randomness source with two index arguments. -/
def zeroSrc2 : Nat → Nat → ℚ := fun _ _ => 0

/-- The concrete scenario of the spec (section 8): `in_features = 3`,
`out_features = 1`, `E = 2`, shared input, member 0 selects input feature 0
and member 1 selects input feature 1, zero bias. -/
def exLayerShared : EnsembleLinear :=
  { in_features := 3
    out_features := 1
    ensemble_size := 2
    share_input := true
    add_bias := true
    weight :=
      { shape := [3, 1, 2]
        data := fun idx =>
          match idx with
          | [j, k, e] => if k = 0 ∧ j = e then 1 else 0
          | _ => 0 }
    bias := { shape := [1, 2], data := fun _ => 0 } }

/-- The input `[[1, 2, 3]]` of shape `[1, 3]` from the concrete scenario. -/
def exInput13 : Tensor :=
  { shape := [1, 3]
    data := fun idx =>
      match idx with
      | [b, j] => if b = 0 then (j : ℚ) + 1 else 0
      | _ => 0 }

/-- A non-shared layer with `E = 2`, `in_features = 1`, `out_features = 1`:
member `e` multiplies its input by `e + 1`; zero bias. -/
def exLayerNoShare : EnsembleLinear :=
  { in_features := 1
    out_features := 1
    ensemble_size := 2
    share_input := false
    add_bias := true
    weight :=
      { shape := [1, 1, 2]
        data := fun idx =>
          match idx with
          | [_, _, e] => (e : ℚ) + 1
          | _ => 0 }
    bias := { shape := [1, 2], data := fun _ => 0 } }

/-- An input of shape `[2, 1]` for the non-shared layer. -/
def exInput21 : Tensor :=
  { shape := [2, 1]
    data := fun idx =>
      match idx with
      | [e, _] => (e : ℚ) + 5
      | _ => 0 }

/-- A perturbation of `exInput21` that changes only member slice 0. -/
def exInput21Perturbed : Tensor :=
  { shape := [2, 1]
    data := fun idx =>
      match idx with
      | [e, _] => if e = 0 then 99 else (e : ℚ) + 5
      | _ => 0 }

/-- A tensor of shape `[1, 2]`, whose trailing dimension 2 matches neither
the `in_features` of either example layer. -/
def exBadInput : Tensor :=
  { shape := [1, 2], data := fun _ => 0 }

/-- A tensor of shape `[2, 1]`: its trailing dimension is the broadcast
singleton 1, not the `in_features = 3` of the shared example layer. -/
def exBroadcastInput : Tensor :=
  { shape := [2, 1]
    data := fun idx =>
      match idx with
      | [b, _] => (b : ℚ) + 1
      | _ => 0 }

/-- A rank-0 tensor (shape `[]`). -/
def exEmptyInput : Tensor :=
  { shape := [], data := fun _ => 0 }

/-- A rank-1 tensor of shape `[3]`. -/
def exInput3 : Tensor :=
  { shape := [3], data := fun _ => 0 }

/-- A tensor of shape `[4, 5]`: both its leading dimension 4 and trailing
dimension 5 differ from the sizes of `exLayerNS2` and neither is 1. -/
def exInput45 : Tensor :=
  { shape := [4, 5], data := fun _ => 0 }

/-- A tensor of shape `[4, 3]`: its trailing dimension matches the
`in_features` of `exLayerNS2` but its leading dimension 4 is neither the
ensemble size 2 nor 1. -/
def exInput43 : Tensor :=
  { shape := [4, 3], data := fun _ => 0 }

/-- A non-shared layer with `in_features = 3` and `E = 2`, both larger than
1, so no einsum broadcasting can mask a mismatched dimension. -/
def exLayerNS2 : EnsembleLinear :=
  { in_features := 3
    out_features := 1
    ensemble_size := 2
    share_input := false
    add_bias := true
    weight := { shape := [3, 1, 2], data := fun _ => 0 }
    bias := { shape := [1, 2], data := fun _ => 0 } }

/-- A layer with `in_features = 1`, used to exercise the initialization
bound with the exactly representable `std = 1 = 1 / sqrt 1`. -/
def exLayerUnit : EnsembleLinear :=
  { in_features := 1
    out_features := 2
    ensemble_size := 3
    share_input := true
    add_bias := true
    weight := { shape := [1, 2, 3], data := fun _ => 7 }
    bias := { shape := [2, 3], data := fun _ => 7 } }

/-- The layer the constructor yields for
`EnsembleLinear(1, 2, ensemble_size=3)` with `std = 1` and zero randomness
sources. -/
def c4Layer : EnsembleLinear :=
  resetParameters
    { in_features := 1
      out_features := 2
      ensemble_size := 3
      share_input := true
      add_bias := true
      weight := { shape := [1, 2, 3], data := fun _ => 0 }
      bias := { shape := [2, 3], data := fun _ => 0 } }
    1 zeroSrc3 zeroSrc2

/-- The layer the constructor yields for
`EnsembleLinear(1, 1, ensemble_size=1, share_input=True, bias=False)` with
zero randomness sources. -/
def c7Layer : EnsembleLinear :=
  resetParameters
    { in_features := 1
      out_features := 1
      ensemble_size := 1
      share_input := true
      add_bias := false
      weight := { shape := [1, 1, 1], data := fun _ => 0 }
      bias := { shape := [1, 1], data := fun _ => 0 } }
    1 zeroSrc3 zeroSrc2

/-- A bias-enabled companion of `c7Layer`: same fields and weight, bias 3. -/
def c7LayerBias : EnsembleLinear :=
  { c7Layer with add_bias := true, bias := { shape := [1, 1], data := fun _ => 3 } }

/-- A layer with `in_features = 2`, `out_features = 1`, `E = 1` on which the
initializer dispatcher is exercised. -/
def c9Layer : EnsembleLinear :=
  { in_features := 2
    out_features := 1
    ensemble_size := 1
    share_input := true
    add_bias := true
    weight := { shape := [2, 1, 1], data := fun _ => 0 }
    bias := { shape := [1, 1], data := fun _ => 1 } }

/-- A family of orthogonal fills for `c9Layer`: each slice is the 2-by-1
column `(1, 0)`, an orthonormal column. -/
def c9Fill : Nat → Nat → Nat → ℚ := fun _ j _ => if j = 0 then 1 else 0

/-- When the two sizes of a labeled dimension agree, broadcast indexing is
the identity. -/
theorem broadcastIndex_self (n j : Nat) : broadcastIndex n n j = j := by
  unfold broadcastIndex
  rw [if_neg]
  rintro ⟨h1, h2⟩
  exact h2 h1

/-- Characterization of `forward` in shared-input mode: on an input of shape
`dims ++ [in_features]` (sizes matching exactly, so no broadcasting occurs)
it succeeds, the output has shape `[E] ++ dims ++ [out_features]`, and the
entry at `e :: pre ++ [k]` is the member-`e` affine map of the (single,
shared) input. -/
theorem forward_share_spec (L : EnsembleLinear) (input : Tensor) (dims : List Nat)
    (hs : L.share_input = true) (hshape : input.shape = dims ++ [L.in_features]) :
    ∃ out, forward L input = .ok out ∧
      out.shape = L.ensemble_size :: (dims ++ [L.out_features]) ∧
      ∀ e pre k, out.data (e :: (pre ++ [k])) =
        (∑ j ∈ Finset.range L.in_features,
          input.data (pre ++ [j]) * L.weight.data [j, k, e]) + L.bias.data [k, e] := by
  have hlast : input.shape.getLastD 0 = L.in_features := by
    rw [hshape, List.getLastD_concat]
  refine ⟨moveLastToFront (einsumShared L input), ?_, ?_, ?_⟩
  · have hcond : input.shape ≠ [] ∧
        broadcastsWith (input.shape.getLastD 0) L.in_features :=
      ⟨by rw [hshape]; simp, by rw [hlast]; exact Or.inl rfl⟩
    unfold forward
    rw [hs, if_pos rfl, if_pos hcond]
  · have h2 : dims ++ [L.out_features, L.ensemble_size] =
        (dims ++ [L.out_features]) ++ [L.ensemble_size] := by simp
    simp only [moveLastToFront, einsumShared, hshape, List.dropLast_concat, h2,
      List.getLastD_concat]
  · intro e pre k
    simp only [moveLastToFront, einsumShared, List.getLastD_concat, List.dropLast_concat,
      List.append_assoc, List.cons_append, List.nil_append, hlast, max_self,
      broadcastIndex_self]

/-- Characterization of `forward` in non-shared mode: on an input of shape
`[E] ++ dims ++ [in_features]` (sizes matching exactly, so no broadcasting
occurs) it succeeds, the output has shape `[E] ++ dims ++ [out_features]`,
and the entry at `e :: pre ++ [k]` is the member-`e` affine map of input
slice `e`. -/
theorem forward_noshare_spec (L : EnsembleLinear) (input : Tensor) (dims : List Nat)
    (hs : L.share_input = false)
    (hshape : input.shape = L.ensemble_size :: (dims ++ [L.in_features])) :
    ∃ out, forward L input = .ok out ∧
      out.shape = L.ensemble_size :: (dims ++ [L.out_features]) ∧
      ∀ e pre k, out.data (e :: (pre ++ [k])) =
        (∑ j ∈ Finset.range L.in_features,
          input.data (e :: (pre ++ [j])) * L.weight.data [j, k, e]) + L.bias.data [k, e] := by
  have hlast : input.shape.getLastD 0 = L.in_features := by
    rw [hshape]
    have h : L.ensemble_size :: (dims ++ [L.in_features]) =
        (L.ensemble_size :: dims) ++ [L.in_features] := by simp
    rw [h, List.getLastD_concat]
  have hhead : input.shape.headD 0 = L.ensemble_size := by rw [hshape]; rfl
  refine ⟨moveLastToFront (einsumNoShare L input), ?_, ?_, ?_⟩
  · have hlen : 2 ≤ input.shape.length := by
      rw [hshape]
      simp only [List.length_cons, List.length_append, List.length_nil]
      omega
    have hcond : 2 ≤ input.shape.length ∧
        broadcastsWith (input.shape.headD 0) L.ensemble_size ∧
        broadcastsWith (input.shape.getLastD 0) L.in_features :=
      ⟨hlen, by rw [hhead]; exact Or.inl rfl, by rw [hlast]; exact Or.inl rfl⟩
    unfold forward
    rw [hs]
    simp only [Bool.false_eq_true, if_false]
    rw [if_pos hcond]
  · have h2 : dims ++ [L.out_features, L.ensemble_size] =
        (dims ++ [L.out_features]) ++ [L.ensemble_size] := by simp
    simp only [moveLastToFront, einsumNoShare, hshape, List.headD_cons, max_self,
      List.tail_cons, List.dropLast_concat, h2, List.getLastD_concat]
  · intro e pre k
    simp only [moveLastToFront, einsumNoShare, List.getLastD_concat, List.dropLast_concat,
      List.append_assoc, List.cons_append, List.nil_append, hhead, hlast, max_self,
      broadcastIndex_self]

/-- A uniform draw from `[-std, std]` lies in `[-std, std]` when the
interval is nonempty. -/
theorem uniformSample_mem (std x : ℚ) (h0 : 0 ≤ std) :
    -std ≤ uniformSample (-std) std x ∧ uniformSample (-std) std x ≤ std := by
  have h1 : 0 ≤ clamp01 x := le_max_left 0 _
  have h2 : clamp01 x ≤ 1 := by
    have := min_le_left 1 x
    simp only [clamp01]
    exact max_le (by linarith) this
  constructor <;> (simp only [uniformSample]; nlinarith)

/-- C1.  With `share_input = true`, on any input of shape
`[..., in_features]` the transform returns a tensor of shape
`[E, ..., out_features]` whose entry at `[e, ..., k]` is
`sum over j of input[..., j] * weight[j, k, e] + bias[k, e]`; equivalently,
slice `e` of the output is the single-member linear layer with weight
`weight[:, :, e]` and bias `bias[:, e]` applied to the same input. -/
theorem c1_shared_forward_correct (L : EnsembleLinear) (input : Tensor)
    (dims : List Nat) (hs : L.share_input = true)
    (hshape : input.shape = dims ++ [L.in_features]) :
    ∃ out, forward L input = .ok out ∧
      out.shape = L.ensemble_size :: (dims ++ [L.out_features]) ∧
      (∀ e pre k, out.data (e :: (pre ++ [k])) =
        (∑ j ∈ Finset.range L.in_features,
          input.data (pre ++ [j]) * L.weight.data [j, k, e]) + L.bias.data [k, e]) ∧
      (∀ e pre k, out.data (e :: (pre ++ [k])) =
        (singleLinearForward L.in_features L.out_features
          (fun j k2 => L.weight.data [j, k2, e])
          (fun k2 => L.bias.data [k2, e]) input).data (pre ++ [k])) := by
  obtain ⟨out, h1, h2, h3⟩ := forward_share_spec L input dims hs hshape
  refine ⟨out, h1, h2, h3, ?_⟩
  intro e pre k
  rw [h3 e pre k]
  simp only [singleLinearForward, List.dropLast_concat, List.getLastD_concat]

/-- Witness for C1 at the concrete scenario of the spec: the layer with
`in_features = 3`, `out_features = 1`, `E = 2` on the input `[[1, 2, 3]]`. -/
theorem c1_witness :
    exLayerShared.share_input = true ∧
    exInput13.shape = [1] ++ [exLayerShared.in_features] ∧
    (∃ out, forward exLayerShared exInput13 = .ok out ∧
      out.shape = exLayerShared.ensemble_size :: ([1] ++ [exLayerShared.out_features]) ∧
      (∀ e pre k, out.data (e :: (pre ++ [k])) =
        (∑ j ∈ Finset.range exLayerShared.in_features,
          exInput13.data (pre ++ [j]) * exLayerShared.weight.data [j, k, e]) +
          exLayerShared.bias.data [k, e]) ∧
      (∀ e pre k, out.data (e :: (pre ++ [k])) =
        (singleLinearForward exLayerShared.in_features exLayerShared.out_features
          (fun j k2 => exLayerShared.weight.data [j, k2, e])
          (fun k2 => exLayerShared.bias.data [k2, e]) exInput13).data (pre ++ [k]))) :=
  ⟨rfl, rfl, c1_shared_forward_correct exLayerShared exInput13 [1] rfl rfl⟩

/-- C2.  With `share_input = false`, on an input of shape
`[E, ..., in_features]` the transform returns a tensor of shape
`[E, ..., out_features]` whose entry at `[e, ..., k]` is
`sum over j of input[e, ..., j] * weight[j, k, e] + bias[k, e]`; hence
output slice `e` depends only on input slice `e`, so perturbing other
slices leaves it unchanged. -/
theorem c2_nonshared_forward_correct (L : EnsembleLinear) (input : Tensor)
    (dims : List Nat) (hs : L.share_input = false)
    (hshape : input.shape = L.ensemble_size :: (dims ++ [L.in_features])) :
    ∃ out, forward L input = .ok out ∧
      out.shape = L.ensemble_size :: (dims ++ [L.out_features]) ∧
      (∀ e pre k, out.data (e :: (pre ++ [k])) =
        (∑ j ∈ Finset.range L.in_features,
          input.data (e :: (pre ++ [j])) * L.weight.data [j, k, e]) +
          L.bias.data [k, e]) ∧
      (∀ (input2 : Tensor) (e : Nat), input2.shape = input.shape →
        (∀ rest, input2.data (e :: rest) = input.data (e :: rest)) →
        ∀ out2, forward L input2 = .ok out2 →
          ∀ pre k, out2.data (e :: (pre ++ [k])) = out.data (e :: (pre ++ [k]))) := by
  obtain ⟨out, h1, h2, h3⟩ := forward_noshare_spec L input dims hs hshape
  refine ⟨out, h1, h2, h3, ?_⟩
  intro input2 e hsh hagree out2 hok2 pre k
  obtain ⟨out2x, g1, g2, g3⟩ :=
    forward_noshare_spec L input2 dims hs (by rw [hsh, hshape])
  rw [hok2] at g1
  cases g1
  rw [g3 e pre k, h3 e pre k]
  congr 1
  exact Finset.sum_congr rfl fun j _ => by rw [hagree (pre ++ [j])]

/-- Witness for C2: the non-shared layer with `E = 2` on an input of shape
`[2, 1]`, together with the perturbed input that changes only slice 0. -/
theorem c2_witness :
    exLayerNoShare.share_input = false ∧
    exInput21.shape =
      exLayerNoShare.ensemble_size :: ([] ++ [exLayerNoShare.in_features]) ∧
    exInput21Perturbed.shape = exInput21.shape ∧
    (∀ rest, exInput21Perturbed.data (1 :: rest) = exInput21.data (1 :: rest)) ∧
    (∃ out, forward exLayerNoShare exInput21 = .ok out ∧
      out.shape =
        exLayerNoShare.ensemble_size :: ([] ++ [exLayerNoShare.out_features]) ∧
      (∀ e pre k, out.data (e :: (pre ++ [k])) =
        (∑ j ∈ Finset.range exLayerNoShare.in_features,
          exInput21.data (e :: (pre ++ [j])) * exLayerNoShare.weight.data [j, k, e]) +
          exLayerNoShare.bias.data [k, e]) ∧
      (∀ (input2 : Tensor) (e : Nat), input2.shape = exInput21.shape →
        (∀ rest, input2.data (e :: rest) = exInput21.data (e :: rest)) →
        ∀ out2, forward exLayerNoShare input2 = .ok out2 →
          ∀ pre k, out2.data (e :: (pre ++ [k])) = out.data (e :: (pre ++ [k])))) :=
  ⟨rfl, rfl, rfl,
    fun rest => by rcases rest with _ | ⟨a, _ | ⟨b, t⟩⟩ <;> rfl,
    c2_nonshared_forward_correct exLayerNoShare exInput21 [] rfl rfl⟩

/-- C10.  With `share_input = true`, the transform constrains only the
trailing dimension of the input: a rank-1 vector of length `in_features` is
accepted and yields shape `[E, out_features]`, and an input whose leading
axis already has size `ensemble_size` is accepted with that axis treated as
an ordinary batch axis — every member `e` is applied to every leading
slice `c`. -/
theorem c10_share_accepts_any_batch (L : EnsembleLinear)
    (hs : L.share_input = true) :
    (∀ input : Tensor, input.shape = [L.in_features] →
      ∃ out, forward L input = .ok out ∧
        out.shape = [L.ensemble_size, L.out_features] ∧
        ∀ e k, out.data [e, k] =
          (∑ j ∈ Finset.range L.in_features,
            input.data [j] * L.weight.data [j, k, e]) + L.bias.data [k, e]) ∧
    (∀ (input : Tensor) (ds : List Nat),
      input.shape = L.ensemble_size :: (ds ++ [L.in_features]) →
      ∃ out, forward L input = .ok out ∧
        out.shape = L.ensemble_size :: ((L.ensemble_size :: ds) ++ [L.out_features]) ∧
        ∀ e c pre k, out.data (e :: c :: (pre ++ [k])) =
          (∑ j ∈ Finset.range L.in_features,
            input.data (c :: (pre ++ [j])) * L.weight.data [j, k, e]) +
            L.bias.data [k, e]) := by
  constructor
  · intro input hshape
    obtain ⟨out, h1, h2, h3⟩ := forward_share_spec L input [] hs hshape
    exact ⟨out, h1, h2, fun e k => h3 e [] k⟩
  · intro input ds hshape
    obtain ⟨out, h1, h2, h3⟩ :=
      forward_share_spec L input (L.ensemble_size :: ds) hs (by rw [hshape]; rfl)
    exact ⟨out, h1, h2, fun e c pre k => h3 e (c :: pre) k⟩

/-- Witness for C10: the shared layer of the concrete scenario accepts both
a rank-1 input and an input with a leading axis of its ensemble size. -/
theorem c10_witness :
    exLayerShared.share_input = true ∧
    ((∀ input : Tensor, input.shape = [exLayerShared.in_features] →
      ∃ out, forward exLayerShared input = .ok out ∧
        out.shape = [exLayerShared.ensemble_size, exLayerShared.out_features] ∧
        ∀ e k, out.data [e, k] =
          (∑ j ∈ Finset.range exLayerShared.in_features,
            input.data [j] * exLayerShared.weight.data [j, k, e]) +
            exLayerShared.bias.data [k, e]) ∧
    (∀ (input : Tensor) (ds : List Nat),
      input.shape = exLayerShared.ensemble_size :: (ds ++ [exLayerShared.in_features]) →
      ∃ out, forward exLayerShared input = .ok out ∧
        out.shape = exLayerShared.ensemble_size ::
          ((exLayerShared.ensemble_size :: ds) ++ [exLayerShared.out_features]) ∧
        ∀ e c pre k, out.data (e :: c :: (pre ++ [k])) =
          (∑ j ∈ Finset.range exLayerShared.in_features,
            input.data (c :: (pre ++ [j])) * exLayerShared.weight.data [j, k, e]) +
            exLayerShared.bias.data [k, e])) :=
  ⟨rfl, c10_share_accepts_any_batch exLayerShared rfl⟩

/-- Projection: `reset_parameters` does not change `in_features`. -/
@[simp] theorem resetParameters_in_features (L : EnsembleLinear) (std : ℚ)
    (wsrc : Nat → Nat → Nat → ℚ) (bsrc : Nat → Nat → ℚ) :
    (resetParameters L std wsrc bsrc).in_features = L.in_features := rfl

/-- Projection: `reset_parameters` does not change `out_features`. -/
@[simp] theorem resetParameters_out_features (L : EnsembleLinear) (std : ℚ)
    (wsrc : Nat → Nat → Nat → ℚ) (bsrc : Nat → Nat → ℚ) :
    (resetParameters L std wsrc bsrc).out_features = L.out_features := rfl

/-- Projection: `reset_parameters` does not change `ensemble_size`. -/
@[simp] theorem resetParameters_ensemble_size (L : EnsembleLinear) (std : ℚ)
    (wsrc : Nat → Nat → Nat → ℚ) (bsrc : Nat → Nat → ℚ) :
    (resetParameters L std wsrc bsrc).ensemble_size = L.ensemble_size := rfl

/-- Projection: `reset_parameters` does not change `share_input`. -/
@[simp] theorem resetParameters_share_input (L : EnsembleLinear) (std : ℚ)
    (wsrc : Nat → Nat → Nat → ℚ) (bsrc : Nat → Nat → ℚ) :
    (resetParameters L std wsrc bsrc).share_input = L.share_input := rfl

/-- Projection: `reset_parameters` does not change `add_bias`. -/
@[simp] theorem resetParameters_add_bias (L : EnsembleLinear) (std : ℚ)
    (wsrc : Nat → Nat → Nat → ℚ) (bsrc : Nat → Nat → ℚ) :
    (resetParameters L std wsrc bsrc).add_bias = L.add_bias := rfl

/-- Projection: `reset_parameters` does not change the weight shape. -/
@[simp] theorem resetParameters_weight_shape (L : EnsembleLinear) (std : ℚ)
    (wsrc : Nat → Nat → Nat → ℚ) (bsrc : Nat → Nat → ℚ) :
    (resetParameters L std wsrc bsrc).weight.shape = L.weight.shape := rfl

/-- Projection: `reset_parameters` does not change the bias shape. -/
@[simp] theorem resetParameters_bias_shape (L : EnsembleLinear) (std : ℚ)
    (wsrc : Nat → Nat → Nat → ℚ) (bsrc : Nat → Nat → ℚ) :
    (resetParameters L std wsrc bsrc).bias.shape = L.bias.shape := by
  unfold resetParameters
  cases h : L.add_bias <;> simp [h]

/-- The weight entry written by `reset_parameters`. -/
theorem resetParameters_weight_data (L : EnsembleLinear) (std : ℚ)
    (wsrc : Nat → Nat → Nat → ℚ) (bsrc : Nat → Nat → ℚ) (j k e : Nat) :
    (resetParameters L std wsrc bsrc).weight.data [j, k, e] =
      uniformSample (-std) std (wsrc j k e) := rfl

/-- The bias entry written by `reset_parameters` when the bias is a
trainable parameter. -/
theorem resetParameters_bias_data (L : EnsembleLinear) (std : ℚ)
    (wsrc : Nat → Nat → Nat → ℚ) (bsrc : Nat → Nat → ℚ) (k e : Nat)
    (hb : L.add_bias = true) :
    (resetParameters L std wsrc bsrc).bias.data [k, e] =
      uniformSample (-std) std (bsrc k e) := by
  unfold resetParameters
  simp [hb]

/-- With `bias=False` the bias buffer is untouched by `reset_parameters`. -/
theorem resetParameters_bias_frozen (L : EnsembleLinear) (std : ℚ)
    (wsrc : Nat → Nat → Nat → ℚ) (bsrc : Nat → Nat → ℚ)
    (hb : L.add_bias = false) :
    (resetParameters L std wsrc bsrc).bias = L.bias := by
  unfold resetParameters
  simp [hb]

/-- Successful construction yields exactly the freshly allocated layer after
its constructor-issued `reset_parameters` call. -/
theorem mk_ok_elim (inF outF e : Int) (share bias : Bool) (std : ℚ)
    (wsrc : Nat → Nat → Nat → ℚ) (bsrc : Nat → Nat → ℚ) (L : EnsembleLinear)
    (hmk : mkEnsembleLinear inF outF e share bias std wsrc bsrc = .ok L) :
    L = resetParameters
      { in_features := inF.toNat
        out_features := outF.toNat
        ensemble_size := e.toNat
        share_input := share
        add_bias := bias
        weight := { shape := [inF.toNat, outF.toNat, e.toNat], data := fun _ => 0 }
        bias := { shape := [outF.toNat, e.toNat], data := fun _ => 0 } }
      std wsrc bsrc := by
  unfold mkEnsembleLinear at hmk
  split at hmk
  · exact absurd hmk (by simp)
  · split at hmk
    · exact absurd hmk (by simp)
    · exact (Except.ok.injEq .. ▸ hmk).symm

/-- A value of `[-std, std]` has square at most `std * std`, hence
`x * x * c ≤ 1` whenever `std * std * c = 1` and `0 ≤ c`. -/
theorem sq_le_one_of_mem (std x c : ℚ) (hc : 0 ≤ c) (hstd : std * std * c = 1)
    (hl : -std ≤ x) (hr : x ≤ std) : x * x * c ≤ 1 := by
  nlinarith [mul_nonneg (mul_nonneg (sub_nonneg.2 hr)
    (show (0 : ℚ) ≤ std + x by linarith)) hc]

/-- On a correctly-shaped input (for the current mode) `forward` succeeds
and the output shape is `[E] ++ dims ++ [out_features]` in both modes. -/
theorem forward_total_shape (L : EnsembleLinear) (input : Tensor) (dims : List Nat)
    (hshape : input.shape =
      (if L.share_input then dims else L.ensemble_size :: dims) ++ [L.in_features]) :
    ∃ out, forward L input = .ok out ∧
      out.shape = L.ensemble_size :: (dims ++ [L.out_features]) := by
  cases h : L.share_input with
  | true =>
    rw [h, if_pos rfl] at hshape
    obtain ⟨out, h1, h2, _⟩ := forward_share_spec L input dims h hshape
    exact ⟨out, h1, h2⟩
  | false =>
    rw [h, if_neg (by simp)] at hshape
    obtain ⟨out, h1, h2, _⟩ := forward_noshare_spec L input dims h hshape
    exact ⟨out, h1, h2⟩

/-- C3.  For positive `in_features`, `out_features`, `ensemble_size` and any
`share_input`/`bias` flags, construction succeeds, and `transform` on any
correctly-shaped input (trailing dimension `in_features`; leading dimension
`ensemble_size` when `share_input = false`) succeeds with output shape
`[E, ..., out_features]` — the same output contract in both modes. -/
theorem c3_valid_construction_and_transform (inF outF e : Int) (share bias : Bool)
    (std : ℚ) (wsrc : Nat → Nat → Nat → ℚ) (bsrc : Nat → Nat → ℚ)
    (hin : 0 < inF) (hout : 0 < outF) (he : 0 < e) :
    ∃ L, mkEnsembleLinear inF outF e share bias std wsrc bsrc = .ok L ∧
      ∀ (input : Tensor) (dims : List Nat),
        input.shape = (if share then dims else e.toNat :: dims) ++ [inF.toNat] →
        ∃ out, forward L input = .ok out ∧
          out.shape = e.toNat :: (dims ++ [outF.toNat]) := by
  refine ⟨resetParameters
    { in_features := inF.toNat
      out_features := outF.toNat
      ensemble_size := e.toNat
      share_input := share
      add_bias := bias
      weight := { shape := [inF.toNat, outF.toNat, e.toNat], data := fun _ => 0 }
      bias := { shape := [outF.toNat, e.toNat], data := fun _ => 0 } }
    std wsrc bsrc, ?_, ?_⟩
  · unfold mkEnsembleLinear
    rw [if_neg (by omega), if_neg (by omega)]
  · intro input dims hshape
    exact forward_total_shape _ input dims hshape

/-- Witness for C3 at `in_features = 3`, `out_features = 1`, `E = 2`. -/
theorem c3_witness :
    ∃ L, mkEnsembleLinear 3 1 2 true true 1 zeroSrc3 zeroSrc2 = .ok L ∧
      ∀ (input : Tensor) (dims : List Nat),
        input.shape = (if true then dims else (2 : Int).toNat :: dims) ++
          [(3 : Int).toNat] →
        ∃ out, forward L input = .ok out ∧
          out.shape = (2 : Int).toNat :: (dims ++ [(1 : Int).toNat]) :=
  c3_valid_construction_and_transform 3 1 2 true true 1 zeroSrc3 zeroSrc2
    (by decide) (by decide) (by decide)

/-- C4.  After a `reset_parameters` call with `std = 1 / sqrt(in_features)`
(characterized by `std * std * in_features = 1` with `0 ≤ std`), every
weight element, and every bias element when the bias is trainable, lies in
`[-std, std]` (equivalently its square times `in_features` is at most 1);
the call changes nothing else: all scalar fields, both parameter shapes, and
— when the bias is disabled — the bias tensor itself are preserved.  The
same bounds hold after construction, whose last step is this call. -/
theorem c4_initialization_bound (std : ℚ) (wsrc : Nat → Nat → Nat → ℚ)
    (bsrc : Nat → Nat → ℚ) (h0 : 0 ≤ std) :
    (∀ L : EnsembleLinear, std * std * (L.in_features : ℚ) = 1 →
      (∀ j k e,
        -std ≤ (resetParameters L std wsrc bsrc).weight.data [j, k, e] ∧
        (resetParameters L std wsrc bsrc).weight.data [j, k, e] ≤ std ∧
        (resetParameters L std wsrc bsrc).weight.data [j, k, e] *
          (resetParameters L std wsrc bsrc).weight.data [j, k, e] *
          (L.in_features : ℚ) ≤ 1) ∧
      (L.add_bias = true → ∀ k e,
        -std ≤ (resetParameters L std wsrc bsrc).bias.data [k, e] ∧
        (resetParameters L std wsrc bsrc).bias.data [k, e] ≤ std ∧
        (resetParameters L std wsrc bsrc).bias.data [k, e] *
          (resetParameters L std wsrc bsrc).bias.data [k, e] *
          (L.in_features : ℚ) ≤ 1) ∧
      (resetParameters L std wsrc bsrc).in_features = L.in_features ∧
      (resetParameters L std wsrc bsrc).out_features = L.out_features ∧
      (resetParameters L std wsrc bsrc).ensemble_size = L.ensemble_size ∧
      (resetParameters L std wsrc bsrc).share_input = L.share_input ∧
      (resetParameters L std wsrc bsrc).add_bias = L.add_bias ∧
      (resetParameters L std wsrc bsrc).weight.shape = L.weight.shape ∧
      (resetParameters L std wsrc bsrc).bias.shape = L.bias.shape ∧
      (L.add_bias = false → (resetParameters L std wsrc bsrc).bias = L.bias)) ∧
    (∀ (a b c : Int) (sh bi : Bool) (L3 : EnsembleLinear),
      mkEnsembleLinear a b c sh bi std wsrc bsrc = .ok L3 →
      std * std * (L3.in_features : ℚ) = 1 →
      ∀ j k e, -std ≤ L3.weight.data [j, k, e] ∧ L3.weight.data [j, k, e] ≤ std ∧
        L3.weight.data [j, k, e] * L3.weight.data [j, k, e] *
          (L3.in_features : ℚ) ≤ 1) := by
  have main : ∀ L : EnsembleLinear, std * std * (L.in_features : ℚ) = 1 →
      ∀ j k e,
        -std ≤ (resetParameters L std wsrc bsrc).weight.data [j, k, e] ∧
        (resetParameters L std wsrc bsrc).weight.data [j, k, e] ≤ std ∧
        (resetParameters L std wsrc bsrc).weight.data [j, k, e] *
          (resetParameters L std wsrc bsrc).weight.data [j, k, e] *
          (L.in_features : ℚ) ≤ 1 := by
    intro L hstd j k e
    rw [resetParameters_weight_data]
    obtain ⟨hl, hr⟩ := uniformSample_mem std (wsrc j k e) h0
    exact ⟨hl, hr, sq_le_one_of_mem std _ _ (Nat.cast_nonneg _) hstd hl hr⟩
  constructor
  · intro L hstd
    refine ⟨main L hstd, ?_, rfl, rfl, rfl, rfl, rfl, rfl,
      resetParameters_bias_shape .., resetParameters_bias_frozen L std wsrc bsrc⟩
    intro hb k e
    rw [resetParameters_bias_data L std wsrc bsrc k e hb]
    obtain ⟨hl, hr⟩ := uniformSample_mem std (bsrc k e) h0
    exact ⟨hl, hr, sq_le_one_of_mem std _ _ (Nat.cast_nonneg _) hstd hl hr⟩
  · intro a b c sh bi L3 hmk hstd3
    rw [mk_ok_elim a b c sh bi std wsrc bsrc L3 hmk] at hstd3 ⊢
    exact main _ hstd3

/-- Witness for C4: a layer with `in_features = 1`, `std = 1` and a concrete
weight entry. -/
theorem c4_witness :
    -1 ≤ (resetParameters exLayerUnit 1 zeroSrc3 zeroSrc2).weight.data [0, 0, 0] ∧
    (resetParameters exLayerUnit 1 zeroSrc3 zeroSrc2).weight.data [0, 0, 0] ≤ 1 ∧
    (resetParameters exLayerUnit 1 zeroSrc3 zeroSrc2).weight.data [0, 0, 0] *
      (resetParameters exLayerUnit 1 zeroSrc3 zeroSrc2).weight.data [0, 0, 0] *
      (exLayerUnit.in_features : ℚ) ≤ 1 :=
  ((c4_initialization_bound 1 zeroSrc3 zeroSrc2 (by simp)).1 exLayerUnit
    (by simp [exLayerUnit])).1 0 0 0

/-- Counterexample for C5: the constructor performs no positivity check.
`EnsembleLinear(1, 0, ensemble_size=1)` has a non-positive `out_features`,
yet construction succeeds (allocating an empty weight) instead of failing
with an invalid-shape condition. -/
theorem c5_counterexample :
    (mkEnsembleLinear 1 0 1 true true 1 zeroSrc3 zeroSrc2).isOk = true ∧
    ¬ (0 < (0 : Int)) :=
  ⟨rfl, by decide⟩

/-- C5 (amended).  Construction performs no positivity validation.  It
fails only where the underlying operations raise: a negative size makes the
tensor allocation raise, and `in_features = 0` makes the initialization
divide by zero.  With `in_features` positive and the other two sizes merely
non-negative (zero included) it succeeds, allocating `weight` of shape
`[in_features, out_features, E]` and `bias` of shape `[out_features, E]`. -/
theorem c5_construction_no_validation (inF outF e : Int) (share bias : Bool)
    (std : ℚ) (wsrc : Nat → Nat → Nat → ℚ) (bsrc : Nat → Nat → ℚ) :
    (0 < inF → 0 ≤ outF → 0 ≤ e →
      ∃ L, mkEnsembleLinear inF outF e share bias std wsrc bsrc = .ok L ∧
        L.in_features = inF.toNat ∧ L.out_features = outF.toNat ∧
        L.ensemble_size = e.toNat ∧ L.share_input = share ∧ L.add_bias = bias ∧
        L.weight.shape = [inF.toNat, outF.toNat, e.toNat] ∧
        L.bias.shape = [outF.toNat, e.toNat]) ∧
    ((inF < 0 ∨ outF < 0 ∨ e < 0) →
      mkEnsembleLinear inF outF e share bias std wsrc bsrc = .error .negativeDim) ∧
    (inF = 0 → 0 ≤ outF → 0 ≤ e →
      mkEnsembleLinear inF outF e share bias std wsrc bsrc =
        .error .divisionByZero) := by
  refine ⟨?_, ?_, ?_⟩
  · intro h1 h2 h3
    refine ⟨resetParameters
      { in_features := inF.toNat
        out_features := outF.toNat
        ensemble_size := e.toNat
        share_input := share
        add_bias := bias
        weight := { shape := [inF.toNat, outF.toNat, e.toNat], data := fun _ => 0 }
        bias := { shape := [outF.toNat, e.toNat], data := fun _ => 0 } }
      std wsrc bsrc, ?_, rfl, rfl, rfl, rfl, rfl, rfl,
      resetParameters_bias_shape ..⟩
    unfold mkEnsembleLinear
    rw [if_neg (by omega), if_neg (by omega)]
  · intro h
    unfold mkEnsembleLinear
    rw [if_pos h]
  · intro h1 h2 h3
    unfold mkEnsembleLinear
    rw [if_neg (by omega), if_pos h1]

/-- Witness for C5 (amended): a succeeding construction at `(2, 3, 1)`, a
negative-dimension failure at `(-1, 3, 1)`, and a division-by-zero failure
at `(0, 3, 1)`. -/
theorem c5_witness :
    (∃ L, mkEnsembleLinear 2 3 1 true true 1 zeroSrc3 zeroSrc2 = .ok L ∧
      L.in_features = (2 : Int).toNat ∧ L.out_features = (3 : Int).toNat ∧
      L.ensemble_size = (1 : Int).toNat ∧ L.share_input = true ∧
      L.add_bias = true ∧
      L.weight.shape = [(2 : Int).toNat, (3 : Int).toNat, (1 : Int).toNat] ∧
      L.bias.shape = [(3 : Int).toNat, (1 : Int).toNat]) ∧
    mkEnsembleLinear (-1) 3 1 true true 1 zeroSrc3 zeroSrc2 =
      .error .negativeDim ∧
    mkEnsembleLinear 0 3 1 true true 1 zeroSrc3 zeroSrc2 =
      .error .divisionByZero :=
  ⟨(c5_construction_no_validation 2 3 1 true true 1 zeroSrc3 zeroSrc2).1
      (by decide) (by decide) (by decide),
   (c5_construction_no_validation (-1) 3 1 true true 1 zeroSrc3 zeroSrc2).2.1
      (by decide),
   (c5_construction_no_validation 0 3 1 true true 1 zeroSrc3 zeroSrc2).2.2
      rfl (by decide) (by decide)⟩

/-- Two sizes with no size-1 among them broadcast only when equal. -/
theorem not_broadcastsWith (a b : Nat) (h1 : a ≠ b) (h2 : a ≠ 1) (h3 : b ≠ 1) :
    ¬ broadcastsWith a b := by
  unfold broadcastsWith
  rintro (h | h | h)
  exacts [h1 h, h2 h, h3 h]

/-- Counterexample for C6: the claim asserts a failure whenever the trailing
dimension differs from `in_features`, but a size-1 labeled dimension is
broadcast by the einsum instead of rejected.  The shared layer with
`in_features = 3` accepts the input of shape `[2, 1]` (trailing dimension
1, not 3): the call succeeds rather than raising. -/
theorem c6_counterexample :
    exLayerShared.share_input = true ∧
    exBroadcastInput.shape.getLast? ≠ some exLayerShared.in_features ∧
    (forward exLayerShared exBroadcastInput).isOk = true :=
  ⟨rfl, by decide, rfl⟩

/-- C6 (amended).  `transform` fails with the shape-mismatch error,
returning no output, whenever the required dimensions cannot be unified
even by size-1 broadcasting: in shared mode, when the input has no
dimensions, or its trailing dimension differs from `in_features` with
neither equal to 1; in non-shared mode, when the input has rank below 2,
or its trailing dimension differs from `in_features` with neither equal to
1, or its leading dimension differs from `ensemble_size` with neither equal
to 1.  (When one of a mismatched pair is 1 the einsum broadcasts it and the
call succeeds instead.) -/
theorem c6_shape_mismatch_no_broadcast (L : EnsembleLinear) (input : Tensor) :
    (L.share_input = true → input.shape = [] →
      forward L input = .error .shapeMismatch) ∧
    (L.share_input = true → input.shape.getLastD 0 ≠ L.in_features →
      input.shape.getLastD 0 ≠ 1 → L.in_features ≠ 1 →
      forward L input = .error .shapeMismatch) ∧
    (L.share_input = false → input.shape.length < 2 →
      forward L input = .error .shapeMismatch) ∧
    (L.share_input = false → input.shape.getLastD 0 ≠ L.in_features →
      input.shape.getLastD 0 ≠ 1 → L.in_features ≠ 1 →
      forward L input = .error .shapeMismatch) ∧
    (L.share_input = false → input.shape.headD 0 ≠ L.ensemble_size →
      input.shape.headD 0 ≠ 1 → L.ensemble_size ≠ 1 →
      forward L input = .error .shapeMismatch) := by
  refine ⟨?_, ?_, ?_, ?_, ?_⟩
  · intro hs hemp
    unfold forward
    rw [hs, if_pos rfl, if_neg (fun hand => hand.1 hemp)]
  · intro hs h1 h2 h3
    unfold forward
    rw [hs, if_pos rfl,
      if_neg (fun hand => not_broadcastsWith _ _ h1 h2 h3 hand.2)]
  · intro hs hlen
    unfold forward
    rw [hs]
    simp only [Bool.false_eq_true, if_false]
    rw [if_neg (fun hand => absurd hand.1 (by omega))]
  · intro hs h1 h2 h3
    unfold forward
    rw [hs]
    simp only [Bool.false_eq_true, if_false]
    rw [if_neg (fun hand => not_broadcastsWith _ _ h1 h2 h3 hand.2.2)]
  · intro hs h1 h2 h3
    unfold forward
    rw [hs]
    simp only [Bool.false_eq_true, if_false]
    rw [if_neg (fun hand => not_broadcastsWith _ _ h1 h2 h3 hand.2.1)]

/-- Witness for C6 (amended): concrete rejections in every case — the
shared layer with a rank-0 input and with the `[1, 2]` input (trailing 2,
not 3 and not 1), and the non-shared layer with `in_features = 3`, `E = 2`
fed a rank-1 input, a `[4, 5]` input (trailing 5) and a `[4, 3]` input
(leading 4). -/
theorem c6_witness :
    forward exLayerShared exEmptyInput = .error .shapeMismatch ∧
    forward exLayerShared exBadInput = .error .shapeMismatch ∧
    forward exLayerNS2 exInput3 = .error .shapeMismatch ∧
    forward exLayerNS2 exInput45 = .error .shapeMismatch ∧
    forward exLayerNS2 exInput43 = .error .shapeMismatch :=
  ⟨(c6_shape_mismatch_no_broadcast exLayerShared exEmptyInput).1 rfl rfl,
   (c6_shape_mismatch_no_broadcast exLayerShared exBadInput).2.1 rfl
     (by decide) (by decide) (by decide),
   (c6_shape_mismatch_no_broadcast exLayerNS2 exInput3).2.2.1 rfl (by decide),
   (c6_shape_mismatch_no_broadcast exLayerNS2 exInput45).2.2.2.1 rfl
     (by decide) (by decide) (by decide),
   (c6_shape_mismatch_no_broadcast exLayerNS2 exInput43).2.2.2.2 rfl
     (by decide) (by decide) (by decide)⟩

/-- The bias tensor of a layer with `add_bias = false` is unchanged by any
sequence of `reset_parameters` and `forward` calls. -/
theorem applyOps_bias_frozen (ops : List LayerOp) :
    ∀ L : EnsembleLinear, L.add_bias = false → (applyOps L ops).bias = L.bias := by
  induction ops with
  | nil => intro L _; rfl
  | cons op ops ih =>
    intro L h
    cases op with
    | reset std wsrc bsrc =>
      have hb : (resetParameters L std wsrc bsrc).add_bias = false := by
        rw [resetParameters_add_bias, h]
      calc (applyOps L (.reset std wsrc bsrc :: ops)).bias
          = (applyOps (resetParameters L std wsrc bsrc) ops).bias := rfl
        _ = (resetParameters L std wsrc bsrc).bias := ih _ hb
        _ = L.bias := resetParameters_bias_frozen L std wsrc bsrc h
    | transform input => exact ih L h

/-- On a correctly-shaped input, two layers that differ only in their bias
tensor both succeed, and when the bias of the first is all zeros, the output
of the first is the output of the second minus the bias term of the second. -/
theorem forward_bias_difference (L0 Lb : EnsembleLinear)
    (h1 : Lb.in_features = L0.in_features) (h2 : Lb.out_features = L0.out_features)
    (h3 : Lb.ensemble_size = L0.ensemble_size)
    (h4 : Lb.share_input = L0.share_input) (h5 : Lb.weight = L0.weight)
    (hz : ∀ k e2, L0.bias.data [k, e2] = 0)
    (input : Tensor) (dims : List Nat)
    (hshape : input.shape =
      (if L0.share_input then dims else L0.ensemble_size :: dims) ++
        [L0.in_features]) :
    ∃ o0 ob, forward L0 input = .ok o0 ∧ forward Lb input = .ok ob ∧
      ∀ e2 pre k, o0.data (e2 :: (pre ++ [k])) =
        ob.data (e2 :: (pre ++ [k])) - Lb.bias.data [k, e2] := by
  cases hsi : L0.share_input with
  | true =>
    rw [hsi, if_pos rfl] at hshape
    obtain ⟨o0, g1, g2, g3⟩ := forward_share_spec L0 input dims hsi hshape
    obtain ⟨ob, f1, f2, f3⟩ := forward_share_spec Lb input dims (h4.trans hsi)
      (by rw [hshape, h1])
    refine ⟨o0, ob, g1, f1, ?_⟩
    intro e2 pre k
    rw [g3 e2 pre k, f3 e2 pre k, hz k e2, h1, h5]
    ring
  | false =>
    rw [hsi, if_neg (by simp)] at hshape
    obtain ⟨o0, g1, g2, g3⟩ := forward_noshare_spec L0 input dims hsi hshape
    obtain ⟨ob, f1, f2, f3⟩ := forward_noshare_spec Lb input dims (h4.trans hsi)
      (by rw [hshape, h1, h3]; simp)
    refine ⟨o0, ob, g1, f1, ?_⟩
    intro e2 pre k
    rw [g3 e2 pre k, f3 e2 pre k, hz k e2, h1, h5]
    ring

/-- C7.  A layer constructed with `bias=False` has an all-zero bias tensor
of shape `[out_features, E]`; that tensor is unchanged by every sequence of
`reset_parameters` and `forward` calls; and on every correctly-shaped input
its output equals the output of a bias-enabled layer with the same weight
minus the bias term of that layer. -/
theorem c7_bias_disabled_invariant (inF outF e : Int) (share : Bool) (std : ℚ)
    (wsrc : Nat → Nat → Nat → ℚ) (bsrc : Nat → Nat → ℚ) (L : EnsembleLinear)
    (hmk : mkEnsembleLinear inF outF e share false std wsrc bsrc = .ok L) :
    L.add_bias = false ∧
    L.bias.shape = [outF.toNat, e.toNat] ∧
    (∀ idx, L.bias.data idx = 0) ∧
    (∀ ops, (applyOps L ops).bias = L.bias) ∧
    (∀ Lb : EnsembleLinear, Lb.in_features = L.in_features →
      Lb.out_features = L.out_features → Lb.ensemble_size = L.ensemble_size →
      Lb.share_input = L.share_input → Lb.weight = L.weight →
      ∀ (input : Tensor) (dims : List Nat),
        input.shape =
          (if L.share_input then dims else L.ensemble_size :: dims) ++
            [L.in_features] →
        ∃ o0 ob, forward L input = .ok o0 ∧ forward Lb input = .ok ob ∧
          ∀ e2 pre k, o0.data (e2 :: (pre ++ [k])) =
            ob.data (e2 :: (pre ++ [k])) - Lb.bias.data [k, e2]) := by
  have hL := mk_ok_elim inF outF e share false std wsrc bsrc L hmk
  have hb : L.add_bias = false := by rw [hL]; rfl
  have hbias : L.bias = { shape := [outF.toNat, e.toNat], data := fun _ => 0 } := by
    rw [hL]
    exact resetParameters_bias_frozen _ std wsrc bsrc rfl
  refine ⟨hb, by rw [hbias], fun idx => by rw [hbias],
    fun ops => applyOps_bias_frozen ops L hb, ?_⟩
  intro Lb g1 g2 g3 g4 g5 input dims hshape
  exact forward_bias_difference L Lb g1 g2 g3 g4 g5
    (fun k e2 => by rw [hbias]) input dims hshape

/-- Witness for C7: the concrete bias-free layer `c7Layer`, obtained from
`mkEnsembleLinear 1 1 1` with `bias = false`, and its bias-enabled
companion `c7LayerBias`, evaluated at the rank-1 input of length 1. -/
theorem c7_witness :
    c7Layer.add_bias = false ∧
    (∀ idx, c7Layer.bias.data idx = 0) ∧
    (∀ ops, (applyOps c7Layer ops).bias = c7Layer.bias) ∧
    (∃ o0 ob, forward c7Layer exInput21 = .ok o0 ∧
      forward c7LayerBias exInput21 = .ok ob ∧
      ∀ e2 pre k, o0.data (e2 :: (pre ++ [k])) =
        ob.data (e2 :: (pre ++ [k])) - c7LayerBias.bias.data [k, e2]) :=
  ⟨(c7_bias_disabled_invariant 1 1 1 true 1 zeroSrc3 zeroSrc2 c7Layer rfl).1,
   (c7_bias_disabled_invariant 1 1 1 true 1 zeroSrc3 zeroSrc2 c7Layer rfl).2.2.1,
   (c7_bias_disabled_invariant 1 1 1 true 1 zeroSrc3 zeroSrc2 c7Layer rfl).2.2.2.1,
   (c7_bias_disabled_invariant 1 1 1 true 1 zeroSrc3 zeroSrc2 c7Layer
      rfl).2.2.2.2 c7LayerBias rfl rfl rfl rfl rfl exInput21 [2] rfl⟩

/-- C8.  A `forward` call mutates no layer state — the state after the call
is the state before it — and the returned value is a function of the
constructor-set fields, the parameters, and the input alone: two layers
equal in every field produce equal results on equal inputs. -/
theorem c8_transform_pure (L1 L2 : EnsembleLinear) (input : Tensor)
    (h1 : L1.in_features = L2.in_features) (h2 : L1.out_features = L2.out_features)
    (h3 : L1.ensemble_size = L2.ensemble_size)
    (h4 : L1.share_input = L2.share_input) (h5 : L1.add_bias = L2.add_bias)
    (h6 : L1.weight = L2.weight) (h7 : L1.bias = L2.bias) :
    (transformCall L1 input).1 = L1 ∧
    (transformCall L1 input).2 = (transformCall L2 input).2 := by
  refine ⟨rfl, ?_⟩
  have hL : L1 = L2 := by cases L1; cases L2; simp_all
  rw [hL]

/-- Witness for C8 at the concrete shared layer and input. -/
theorem c8_witness :
    (transformCall exLayerShared exInput13).1 = exLayerShared ∧
    (transformCall exLayerShared exInput13).2 =
      (transformCall exLayerShared exInput13).2 :=
  c8_transform_pure exLayerShared exLayerShared exInput13
    rfl rfl rfl rfl rfl rfl rfl

/-- Counterexample for C9: the dispatcher applies orthogonal — not
fan-in-scaled uniform — initialization to each member slice.  On the layer
with `in_features = 2`, `out_features = 1` the column `(1, 0)` is a valid
orthogonal fill, and the resulting weight entry `1` lies outside
`[-1/sqrt 2, 1/sqrt 2]`: its square times `in_features` exceeds 1. -/
theorem c9_counterexample :
    IsOrthogonalFill c9Layer.in_features c9Layer.out_features 1 (c9Fill 0) ∧
    (weight_init_ensemble c9Layer c9Fill).weight.data [0, 0, 0] = 1 ∧
    ¬ ((weight_init_ensemble c9Layer c9Fill).weight.data [0, 0, 0] *
       (weight_init_ensemble c9Layer c9Fill).weight.data [0, 0, 0] *
       (c9Layer.in_features : ℚ) ≤ 1) := by
  refine ⟨?_, rfl, ?_⟩
  · simp [IsOrthogonalFill, c9Layer, c9Fill, Finset.sum_range_succ, Nat.lt_one_iff]
  · have h : (weight_init_ensemble c9Layer c9Fill).weight.data [0, 0, 0] = 1 := rfl
    rw [h]
    simp [c9Layer]

/-- C9 (amended).  The dispatcher does special-case the ensemble layer, but
not by the fan-in-scaled uniform scheme: it overwrites each member slice
`weight[:, :, i]`, `i < E`, with the orthogonal matrix the library produced
for that slice (so each slice is (semi-)orthogonal, the per-slice analogue
of the default rule for ordinary linear modules), zero-fills the bias, and
changes nothing else.  The resulting entries may lie outside
`[-1/sqrt(in_features), 1/sqrt(in_features)]`. -/
theorem c9_dispatcher_per_slice_orthogonal (L : EnsembleLinear) (g : ℚ)
    (fills : Nat → Nat → Nat → ℚ)
    (hfills : ∀ i, i < L.ensemble_size →
      IsOrthogonalFill L.in_features L.out_features g (fills i)) :
    (∀ e, e < L.ensemble_size → ∀ j k,
      (weight_init_ensemble L fills).weight.data [j, k, e] = fills e j k) ∧
    (∀ e, e < L.ensemble_size →
      IsOrthogonalFill L.in_features L.out_features g
        (fun j k => (weight_init_ensemble L fills).weight.data [j, k, e])) ∧
    (∀ idx, (weight_init_ensemble L fills).bias.data idx = 0) ∧
    (weight_init_ensemble L fills).in_features = L.in_features ∧
    (weight_init_ensemble L fills).out_features = L.out_features ∧
    (weight_init_ensemble L fills).ensemble_size = L.ensemble_size ∧
    (weight_init_ensemble L fills).share_input = L.share_input ∧
    (weight_init_ensemble L fills).add_bias = L.add_bias ∧
    (weight_init_ensemble L fills).weight.shape = L.weight.shape ∧
    (weight_init_ensemble L fills).bias.shape = L.bias.shape := by
  have hdata : ∀ e, e < L.ensemble_size → ∀ j k,
      (weight_init_ensemble L fills).weight.data [j, k, e] = fills e j k := by
    intro e he j k
    simp [weight_init_ensemble, he]
  refine ⟨hdata, ?_, fun idx => rfl, rfl, rfl, rfl, rfl, rfl, rfl, rfl⟩
  intro e he
  have hfun : (fun j k => (weight_init_ensemble L fills).weight.data [j, k, e]) =
      fills e := by
    funext j k
    exact hdata e he j k
  rw [hfun]
  exact hfills e he

/-- Witness for C9 (amended) on the concrete layer and orthogonal fill. -/
theorem c9_witness :
    (∀ idx, (weight_init_ensemble c9Layer c9Fill).bias.data idx = 0) ∧
    (∀ e, e < c9Layer.ensemble_size →
      IsOrthogonalFill c9Layer.in_features c9Layer.out_features 1
        (fun j k => (weight_init_ensemble c9Layer c9Fill).weight.data [j, k, e])) :=
  ⟨(c9_dispatcher_per_slice_orthogonal c9Layer 1 c9Fill (fun i _ => by
      simp [IsOrthogonalFill, c9Layer, c9Fill, Finset.sum_range_succ,
        Nat.lt_one_iff])).2.2.1,
   (c9_dispatcher_per_slice_orthogonal c9Layer 1 c9Fill (fun i _ => by
      simp [IsOrthogonalFill, c9Layer, c9Fill, Finset.sum_range_succ,
        Nat.lt_one_iff])).2.1⟩
